import Mathlib

/-!
Verification of the UniFi controller client (`network` package, `cloudkey.go`).

The Go code is shallowly embedded: machine time (`time.Time`, durations) is
modelled as `Int` epoch milliseconds, `float64` throughput values as `ℚ`
(they are only compared, never arithmetically combined), stateful methods on
`*UDMProClient` as pure functions from a `ClientState` to a new state, and
network I/O as explicit parameters (the response the transport would deliver).
-/

namespace Cloudkey

/-- Mirrors Go struct `SpeedtestResult`. -/
structure SpeedtestResult where
  downloadMbps : ℚ
  uploadMbps : ℚ
  latencyMs : ℚ
  timestamp : Int
deriving Repr, DecidableEq

/-- Mirrors the anonymous entry struct inside `SpeedtestResponse.Data`
(fields `xput_download`, `xput_upload`, `latency`, `time`). -/
structure SpeedtestEntry where
  xput_download : ℚ
  xput_upload : ℚ
  latency : ℚ
  time : Int
deriving Repr, DecidableEq

/-- Mirrors Go struct `SessionCache` (`Expires` as epoch millis). -/
structure SessionCache where
  authToken : String
  csrfToken : String
  expires : Int
deriving Repr, DecidableEq

/-- Mirrors Go struct `SpeedtestCache` (`Timestamp` as epoch millis,
`TTL` as a millisecond duration). -/
structure SpeedtestCache where
  result : Option SpeedtestResult
  timestamp : Int
  ttl : Int
deriving Repr, DecidableEq

/-- The mutable fields of Go struct `UDMProClient` that the verified
operations touch (`IsUniFiOS`, `AuthToken`, `CSRFToken`, `cache`, `session`). -/
structure ClientState where
  isUniFiOS : Bool
  authToken : String
  csrfToken : String
  cache : SpeedtestCache
  session : SessionCache
deriving Repr, DecidableEq

/-- Mirrors `isSessionValid`: `c.session.AuthToken != "" && time.Now().Before(c.session.Expires)`. -/
def isSessionValid (c : ClientState) (now : Int) : Bool :=
  (c.session.authToken != "") && decide (now < c.session.expires)

/-- Mirrors `cacheSession`: copies the client token fields into the session
cache and stamps an 8-hour expiry (`8 * time.Hour` = 28800000 ms). -/
def cacheSession (c : ClientState) (now : Int) : ClientState :=
  { c with session :=
      { authToken := c.authToken
        csrfToken := c.csrfToken
        expires := now + 8 * 60 * 60 * 1000 } }

/-- Mirrors `useCachedSession`: restores the cached tokens onto the client. -/
def useCachedSession (c : ClientState) : ClientState :=
  { c with authToken := c.session.authToken, csrfToken := c.session.csrfToken }

/-- Mirrors the session invalidation performed in the 401 branch of
`GetSpeedtestResultsInRange`:
`c.AuthToken = ""` ; `c.CSRFToken = ""` ; `c.session.Expires = time.Now()`. -/
def invalidateSession (c : ClientState) (now : Int) : ClientState :=
  { c with authToken := "", csrfToken := "",
           session := { c.session with expires := now } }

/-- Mirrors `getCachedSpeedtest`: returns the stored result when one exists
and `time.Since(c.cache.Timestamp) < c.cache.TTL`, else `nil`. -/
def getCachedSpeedtest (c : ClientState) (now : Int) : Option SpeedtestResult :=
  match c.cache.result with
  | some r => if now - c.cache.timestamp < c.cache.ttl then some r else none
  | none => none

/-- Mirrors `setCachedSpeedtest`: stores the result and stamps `time.Now()`. -/
def setCachedSpeedtest (c : ClientState) (r : SpeedtestResult) (now : Int) : ClientState :=
  { c with cache := { c.cache with result := some r, timestamp := now } }

/-! ### Base64 (standard alphabet), modelling `base64.StdEncoding.DecodeString` -/

/-- Value of a character in the standard base64 alphabet. -/
def base64CharVal (ch : Char) : Option Nat :=
  if 'A' ≤ ch ∧ ch ≤ 'Z' then some (ch.toNat - 65)
  else if 'a' ≤ ch ∧ ch ≤ 'z' then some (ch.toNat - 97 + 26)
  else if '0' ≤ ch ∧ ch ≤ '9' then some (ch.toNat - 48 + 52)
  else if ch = '+' then some 62
  else if ch = '/' then some 63
  else none

/-- Decode base64 in 4-character groups into bytes (as `Nat`s below 256).
Rejects input whose length is not a multiple of 4 and misplaced padding,
as Go's `base64.StdEncoding.DecodeString` does. -/
def base64DecodeGroups : List Char → Option (List Nat)
  | [] => some []
  | c1 :: c2 :: c3 :: c4 :: rest =>
    match base64CharVal c1, base64CharVal c2 with
    | some v1, some v2 =>
      if c3 = '=' then
        if c4 = '=' ∧ rest = [] then some [v1 * 4 + v2 / 16]
        else none
      else
        match base64CharVal c3 with
        | some v3 =>
          if c4 = '=' then
            if rest = [] then some [v1 * 4 + v2 / 16, (v2 % 16) * 16 + v3 / 4]
            else none
          else
            match base64CharVal c4 with
            | some v4 =>
              match base64DecodeGroups rest with
              | some bs =>
                some ((v1 * 4 + v2 / 16) :: ((v2 % 16) * 16 + v3 / 4) :: ((v3 % 4) * 64 + v4) :: bs)
              | none => none
            | none => none
        | none => none
    | _, _ => none
  | _ => none

/-! ### JSON values and a parser, modelling `json.Unmarshal` into `map[string]any` -/

/-- JSON values as produced by decoding into Go's `any` (numbers kept raw, as
they are never inspected by the verified code). -/
inductive Json where
  | null
  | bool (b : Bool)
  | num (raw : String)
  | str (s : String)
  | arr (elems : List Json)
  | obj (fields : List (String × Json))
deriving Repr

def quoteChar : Char := Char.ofNat 34

def backslashChar : Char := Char.ofNat 92

def lbraceChar : Char := Char.ofNat 123

def rbraceChar : Char := Char.ofNat 125

def hexDigitVal (ch : Char) : Option Nat :=
  if '0' ≤ ch ∧ ch ≤ '9' then some (ch.toNat - 48)
  else if 'a' ≤ ch ∧ ch ≤ 'f' then some (ch.toNat - 97 + 10)
  else if 'A' ≤ ch ∧ ch ≤ 'F' then some (ch.toNat - 65 + 10)
  else none

def escChar (ch : Char) : Option Char :=
  if ch = quoteChar then some quoteChar
  else if ch = backslashChar then some backslashChar
  else if ch = '/' then some '/'
  else if ch = 'b' then some (Char.ofNat 8)
  else if ch = 'f' then some (Char.ofNat 12)
  else if ch = 'n' then some (Char.ofNat 10)
  else if ch = 'r' then some (Char.ofNat 13)
  else if ch = 't' then some (Char.ofNat 9)
  else none

/-- Parse the body of a JSON string literal (the opening quote already
consumed), returning the decoded characters and the remaining input. -/
def parseStringChars : List Char → Option (List Char × List Char)
  | [] => none
  | ch :: rest =>
    if ch = quoteChar then some ([], rest)
    else if ch = backslashChar then
      match rest with
      | [] => none
      | e :: rest2 =>
        if e = 'u' then
          match rest2 with
          | h1 :: h2 :: h3 :: h4 :: rest3 =>
            match hexDigitVal h1, hexDigitVal h2, hexDigitVal h3, hexDigitVal h4 with
            | some a, some b, some cc, some d =>
              match parseStringChars rest3 with
              | some (cs, rem) => some (Char.ofNat (((a * 16 + b) * 16 + cc) * 16 + d) :: cs, rem)
              | none => none
            | _, _, _, _ => none
          | _ => none
        else
          match escChar e with
          | some ec =>
            match parseStringChars rest2 with
            | some (cs, rem) => some (ec :: cs, rem)
            | none => none
          | none => none
    else
      match parseStringChars rest with
      | some (cs, rem) => some (ch :: cs, rem)
      | none => none

def isWsChar (ch : Char) : Bool :=
  ch = ' ' || ch = Char.ofNat 10 || ch = Char.ofNat 13 || ch = Char.ofNat 9

def skipWs (cs : List Char) : List Char := cs.dropWhile isWsChar

def numChar (ch : Char) : Bool :=
  decide ('0' ≤ ch ∧ ch ≤ '9') || ch = '-' || ch = '+' || ch = '.' || ch = 'e' || ch = 'E'

/-- Assignment into a JSON object modelling Go map semantics: a repeated key
overwrites the earlier value. -/
def objInsert (fields : List (String × Json)) (k : String) (v : Json) : List (String × Json) :=
  match fields with
  | [] => [(k, v)]
  | (k0, v0) :: rest => if k0 = k then (k0, v) :: rest else (k0, v0) :: objInsert rest k v

/-- Lookup in a JSON object, modelling Go's `jwtData[field]`. -/
def jsonLookup (fields : List (String × Json)) (k : String) : Option Json :=
  match fields with
  | [] => none
  | (k0, v0) :: rest => if k0 = k then some v0 else jsonLookup rest k

mutual

/-- Fuel-bounded JSON value parser (mirrors the grammar `json.Unmarshal`
accepts; numbers are taken as a maximal run of number characters). -/
def parseValue : Nat → List Char → Option (Json × List Char)
  | 0, _ => none
  | fuel + 1, cs =>
    match skipWs cs with
    | [] => none
    | ch :: rest =>
      if ch = quoteChar then
        match parseStringChars rest with
        | some (s, rem) => some (.str (String.mk s), rem)
        | none => none
      else if ch = lbraceChar then parseObjBody fuel rest
      else if ch = '[' then parseArrBody fuel rest
      else if ch = 't' then
        match rest with
        | 'r' :: 'u' :: 'e' :: rem => some (.bool true, rem)
        | _ => none
      else if ch = 'f' then
        match rest with
        | 'a' :: 'l' :: 's' :: 'e' :: rem => some (.bool false, rem)
        | _ => none
      else if ch = 'n' then
        match rest with
        | 'u' :: 'l' :: 'l' :: rem => some (.null, rem)
        | _ => none
      else
        let run := (ch :: rest).takeWhile numChar
        if run.isEmpty then none
        else some (.num (String.mk run), (ch :: rest).dropWhile numChar)

/-- Parse the members of a JSON object (opening brace already consumed,
object known to be non-empty). -/
def parseMembers : Nat → List (String × Json) → List Char → Option (List (String × Json) × List Char)
  | 0, _, _ => none
  | fuel + 1, acc, cs =>
    match skipWs cs with
    | [] => none
    | ch :: rest =>
      if ch = quoteChar then
        match parseStringChars rest with
        | none => none
        | some (key, rest2) =>
          match skipWs rest2 with
          | ':' :: rest3 =>
            match parseValue fuel rest3 with
            | none => none
            | some (v, rest4) =>
              let acc2 := objInsert acc (String.mk key) v
              match skipWs rest4 with
              | [] => none
              | ch2 :: rest5 =>
                if ch2 = ',' then parseMembers fuel acc2 rest5
                else if ch2 = rbraceChar then some (acc2, rest5)
                else none
          | _ => none
      else none

/-- Parse a JSON object body (opening brace already consumed). -/
def parseObjBody : Nat → List Char → Option (Json × List Char)
  | 0, _ => none
  | fuel + 1, cs =>
    match skipWs cs with
    | [] => none
    | ch :: rest =>
      if ch = rbraceChar then some (.obj [], rest)
      else
        match parseMembers fuel [] (ch :: rest) with
        | some (fields, rem) => some (.obj fields, rem)
        | none => none

/-- Parse the elements of a JSON array (opening bracket already consumed,
array known to be non-empty). -/
def parseElems : Nat → List Json → List Char → Option (List Json × List Char)
  | 0, _, _ => none
  | fuel + 1, acc, cs =>
    match parseValue fuel cs with
    | none => none
    | some (v, rest) =>
      match skipWs rest with
      | [] => none
      | ch :: rest2 =>
        if ch = ',' then parseElems fuel (acc ++ [v]) rest2
        else if ch = ']' then some (acc ++ [v], rest2)
        else none

/-- Parse a JSON array body (opening bracket already consumed). -/
def parseArrBody : Nat → List Char → Option (Json × List Char)
  | 0, _ => none
  | fuel + 1, cs =>
    match skipWs cs with
    | ']' :: rest => some (.arr [], rest)
    | cs2 =>
      match parseElems fuel [] cs2 with
      | some (elems, rem) => some (.arr elems, rem)
      | none => none

end

/-- Model of `json.Unmarshal(decoded, &jwtData)` with `jwtData : map[string]any`:
the input must be a single JSON object with nothing but whitespace after it. -/
def parseJsonObject (cs : List Char) : Option (List (String × Json)) :=
  match parseValue (4 * (cs.length + 1)) cs with
  | some (Json.obj fields, rem) => if (skipWs rem).isEmpty then some fields else none
  | _ => none

/-! ### CSRF extraction (`extractCSRFToken`) -/

/-- Bytes to characters; the verified payloads are ASCII, where this agrees
with Go's UTF-8 interpretation of the decoded bytes. -/
def bytesToChars (bs : List Nat) : List Char := bs.map Char.ofNat

/-- Model of `strings.Split(token, ".")` on characters: split at every dot,
`[""]` for the empty string, as Go's `strings.Split` behaves. -/
def splitOnDot : List Char → List (List Char)
  | [] => [[]]
  | ch :: rest =>
    if ch = '.' then [] :: splitOnDot rest
    else
      match splitOnDot rest with
      | [] => [[ch]]
      | g :: gs => (ch :: g) :: gs

/-- Model of `strings.ReplaceAll` for a single-character pattern. -/
def replaceChar (pat sub : Char) (cs : List Char) : List Char :=
  cs.map fun ch => if ch = pat then sub else ch

/-- The split / pad / character-replace / base64-decode / JSON-parse pipeline
of `extractCSRFToken` (lines 362-390 of the Go source). -/
def decodeJwtPayload (authToken : String) : Except String (List (String × Json)) :=
  match splitOnDot authToken.toList with
  | [_, payload0, _] =>
    let padded :=
      match payload0.length % 4 with
      | 2 => payload0 ++ ['=', '=']
      | 3 => payload0 ++ ['=']
      | _ => payload0
    let std := replaceChar '_' '/' (replaceChar '-' '+' padded)
    match base64DecodeGroups std with
    | none => .error "failed to decode JWT payload"
    | some bytes =>
      match parseJsonObject (bytesToChars bytes) with
      | none => .error "failed to parse JWT payload"
      | some fields => .ok fields
  | _ => .error "invalid JWT format - expected 3 parts"

/-- Mirrors Go `possibleFields` in `extractCSRFToken`. -/
def possibleFields : List String := ["csrfToken", "csrf_token", "xsrfToken", "token"]

/-- Mirrors the candidate-field loop of `extractCSRFToken`: first field that
exists with a non-empty string value wins; others are skipped. -/
def findCSRFField (jwtData : List (String × Json)) : List String → Option String
  | [] => none
  | f :: rest =>
    match jsonLookup jwtData f with
    | some (Json.str s) => if s != "" then some s else findCSRFField jwtData rest
    | some _ => findCSRFField jwtData rest
    | none => findCSRFField jwtData rest

/-- Mirrors `extractCSRFToken`: no-op unless UniFi OS with a token; errors
propagate from the decode pipeline; a missing CSRF field is not an error and
leaves `csrfToken` unchanged. -/
def extractCSRFToken (c : ClientState) : Except String ClientState :=
  if !c.isUniFiOS || c.authToken == "" then .ok c
  else
    match decodeJwtPayload c.authToken with
    | .error e => .error e
    | .ok jwtData =>
      match findCSRFField jwtData possibleFields with
      | some tok => .ok { c with csrfToken := tok }
      | none => .ok c

/-! ### Login -/

/-- Error taxonomy of the client, mirroring the `fmt.Errorf` cases. -/
inductive UDMError where
  | rateLimited (status : Nat)
  | loginFailedStatus (status : Nat)
  | csrfExtractFailed (msg : String)
  | noAuthToken
  | reauthFailed (inner : UDMError)
  | fetchFailedStatus (status : Nat)
  | apiError (msg : String)
  | apiStatus (rc : String)
  | noResults
  | noValidSamples
  | v2Error (code : Int) (msg : String)
  | unrecognizedFormat
  | noResponse
deriving Repr, DecidableEq

/-- The login HTTP response: status and `Set-Cookie` name/value pairs. -/
structure HTTPLoginResponse where
  status : Nat
  cookies : List (String × String)
deriving Repr, DecidableEq

/-- Mirrors the cookie loop of `Login` (lines 333-343): on a `TOKEN` cookie
(UniFi OS) store the auth token and extract the CSRF token, failing the login
if extraction fails; on a `unifises` cookie (legacy) store the auth token. -/
def processCookies (c : ClientState) : List (String × String) → ClientState × Option String
  | [] => (c, none)
  | (name, value) :: rest =>
    if c.isUniFiOS && name == "TOKEN" then
      match extractCSRFToken { c with authToken := value } with
      | .error e => ({ c with authToken := value }, some e)
      | .ok c2 => processCookies c2 rest
    else if !c.isUniFiOS && name == "unifises" then
      processCookies { c with authToken := value } rest
    else
      processCookies c rest

/-- Result of `Login`: the client state afterwards, the error if any, and
whether a network request was issued (false when the cached session is reused). -/
structure LoginOutcome where
  state : ClientState
  err : Option UDMError
  networked : Bool
deriving Repr, DecidableEq

/-- Mirrors `Login`: reuse a valid cached session without network traffic;
otherwise post credentials (the transport's answer is the `resp` parameter),
handle 429 and non-200, extract tokens from cookies, and cache the session. -/
def login (c : ClientState) (now : Int) (resp : HTTPLoginResponse) : LoginOutcome :=
  if isSessionValid c now then
    { state := useCachedSession c, err := none, networked := false }
  else if resp.status == 429 then
    { state := c, err := some (.rateLimited resp.status), networked := true }
  else if resp.status != 200 then
    { state := c, err := some (.loginFailedStatus resp.status), networked := true }
  else
    match processCookies c resp.cookies with
    | (c1, some e) => { state := c1, err := some (.csrfExtractFailed e), networked := true }
    | (c1, none) =>
      if c1.authToken == "" then
        { state := c1, err := some .noAuthToken, networked := true }
      else
        { state := cacheSession c1 now, err := none, networked := true }

/-! ### Response normalisation and sample selection -/

/-- The nonzero filter of the selection loop: `result.XputDownload > 0 || result.XputUpload > 0`. -/
def isValidEntry (e : SpeedtestEntry) : Bool :=
  decide (0 < e.xput_download) || decide (0 < e.xput_upload)

/-- The update of `mostRecent` for a valid entry:
`if mostRecent == nil || result.Time > mostRecent.Time`. -/
def maxStep (acc : Option SpeedtestEntry) (e : SpeedtestEntry) : Option SpeedtestEntry :=
  match acc with
  | none => some e
  | some m => if m.time < e.time then some e else some m

/-- One iteration of the selection loop over `Data`. -/
def selectStep (acc : Option SpeedtestEntry) (e : SpeedtestEntry) : Option SpeedtestEntry :=
  if isValidEntry e then maxStep acc e else acc

/-- The selection loop of `GetSpeedtestResultsInRange` (inlined identically in
all three schema branches of the Go source). -/
def selectMostRecent (data : List SpeedtestEntry) : Option SpeedtestEntry :=
  data.foldl selectStep none

/-- Mirrors `convertSpeedtestResult`. -/
def convertSpeedtestResult (e : SpeedtestEntry) : SpeedtestResult :=
  { downloadMbps := e.xput_download
    uploadMbps := e.xput_upload
    latencyMs := e.latency
    timestamp := e.time }

/-- The three JSON response shapes the client distinguishes, at the
granularity the normalizer inspects them. `unparsed` stands for a body no
schema matched. -/
inductive RespBody where
  | metaWrapped (rc : String) (msg : String) (data : List SpeedtestEntry)
  | bareArray (data : List SpeedtestEntry)
  | v2Format (errorCode : Int) (message : String) (data : List SpeedtestEntry)
  | unparsed
deriving Repr, DecidableEq

/-- The `mostRecent == nil` check and conversion shared by the three branches. -/
def selectAndConvert (data : List SpeedtestEntry) : Except UDMError SpeedtestResult :=
  match selectMostRecent data with
  | none => .error .noValidSamples
  | some e => .ok (convertSpeedtestResult e)

/-- Mirrors the body handling of `GetSpeedtestResultsInRange` (lines 530-649):
meta-wrapped, bare-array and v2 formats; an empty bare array and an empty v2
`data` fall through to the unrecognized-format error, as in the Go source. -/
def handleBody : RespBody → Except UDMError SpeedtestResult
  | .metaWrapped rc msg data =>
    if rc != "ok" then
      if rc == "error" then
        .error (.apiError (if msg != "" then msg else "Unknown error from controller"))
      else .error (.apiStatus rc)
    else if data.length == 0 then .error .noResults
    else selectAndConvert data
  | .bareArray data =>
    if data.length > 0 then selectAndConvert data
    else .error .unrecognizedFormat
  | .v2Format errorCode message data =>
    if errorCode != 0 then
      .error (.v2Error errorCode (if message != "" then message else "Unknown error from v2 API"))
    else if data.length > 0 then selectAndConvert data
    else .error .unrecognizedFormat
  | .unparsed => .error .unrecognizedFormat

/-! ### The ranged fetch with its 401 handler, and the cached entry point -/

/-- One archive-report HTTP exchange as seen by the client. -/
structure FetchResp where
  status : Nat
  body : RespBody
deriving Repr, DecidableEq

/-- Mirrors `GetSpeedtestResultsInRange`. The list holds the successive
responses the transport delivers (one per attempt; an exhausted list models a
computation still in flight). `loginResp` is what the login endpoint answers
on re-authentication. The `Nat` in the result is instrumentation counting the
re-login rounds performed. `startT`/`endT` model the requested range, which
the 401 handler passes unchanged into the retry. -/
def getSpeedtestResultsInRange (loginResp : HTTPLoginResponse) (now startT endT : Int) :
    ClientState → List FetchResp → Except UDMError (ClientState × SpeedtestResult × Nat)
  | _, [] => .error .noResponse
  | c, resp :: rest =>
    if resp.status == 401 then
      let c1 := invalidateSession c now
      let lo := login c1 now loginResp
      match lo.err with
      | some e => .error (.reauthFailed e)
      | none =>
        match getSpeedtestResultsInRange loginResp now startT endT lo.state rest with
        | .error e => .error e
        | .ok (c2, r, n) => .ok (c2, r, n + 1)
    else if resp.status != 200 then
      .error (.fetchFailedStatus resp.status)
    else
      match handleBody resp.body with
      | .error e => .error e
      | .ok r => .ok (c, r, 0)

/-- Mirrors `GetSpeedtestResults`: cache check, then a ranged fetch over the
last 24 hours (`end = time.Now().UnixMilli()`, `start = end - 24*60*60*1000`),
caching the result only on success. The ranged fetch itself is the
`fetchRange` parameter. -/
def getSpeedtestResults (c : ClientState) (now : Int)
    (fetchRange : Int → Int → Except UDMError SpeedtestResult) :
    Except UDMError SpeedtestResult × ClientState :=
  match getCachedSpeedtest c now with
  | some cached => (.ok cached, c)
  | none =>
    let endT := now
    let startT := endT - 24 * 60 * 60 * 1000
    match fetchRange startT endT with
    | .error e => (.error e, c)
    | .ok r => (.ok r, setCachedSpeedtest c r now)

/-! ### Speed formatting (`FormatSpeed`) -/

/-- Round to the nearest integer, ties to even, as Go's `%.1f` formatting
rounds the scaled value. -/
def roundHalfEven (q : ℚ) : Int :=
  if q - ⌊q⌋ < 1 / 2 then ⌊q⌋
  else if 1 / 2 < q - ⌊q⌋ then ⌊q⌋ + 1
  else if ⌊q⌋ % 2 = 0 then ⌊q⌋ else ⌊q⌋ + 1

/-- `%.1f` of a non-negative rational. -/
def fmtOneDecNonneg (q : ℚ) : String :=
  toString (roundHalfEven (q * 10) / 10) ++ "." ++ toString (roundHalfEven (q * 10) % 10)

/-- `fmt.Sprintf` with verb `%.1f`. -/
def fmtOneDec (q : ℚ) : String :=
  if q < 0 then "-" ++ fmtOneDecNonneg (-q) else fmtOneDecNonneg q

/-- Mirrors `FormatSpeed`: `mbps >= 1000` renders as Gb/s of `mbps/1000`,
otherwise as Mb/s, one decimal each. -/
def FormatSpeed (mbps : ℚ) : String :=
  if 1000 ≤ mbps then fmtOneDec (mbps / 1000) ++ " Gb/s"
  else fmtOneDec mbps ++ " Mb/s"

/-! ### Specification-side selection policy (for the refinement claim C3) -/

/-- Stated from the spec's words: among entries passing the nonzero filter,
the first one (in array order) whose timestamp is greatest. -/
def specFirstGreatest (data : List SpeedtestEntry) : Option SpeedtestEntry :=
  let v := data.filter isValidEntry
  v.find? (fun e => v.all (fun e2 => decide (e2.time ≤ e.time)))

/-! ## Sample values used by the witness theorems -/

def sampleResult : SpeedtestResult := ⟨100, 20, 5, 1000⟩

def sampleEntry : SpeedtestEntry := ⟨80, 10, 3, 200⟩

/-- A UniFi OS client with a live session, used by witnesses. -/
def clientLive : ClientState :=
  { isUniFiOS := true, authToken := "tokA", csrfToken := "csrfA",
    cache := ⟨none, 0, 86400000⟩,
    session := ⟨"sessA", "csrfA", 10⟩ }

/-- A client whose session expiry has passed, used by witnesses. -/
def clientExpired : ClientState :=
  { isUniFiOS := true, authToken := "tokA", csrfToken := "csrfA",
    cache := ⟨none, 0, 86400000⟩,
    session := ⟨"sessA", "csrfA", 0⟩ }

/-- A client with a populated result cache (stored at time 0, 24h TTL). -/
def clientCached : ClientState :=
  { isUniFiOS := true, authToken := "tokA", csrfToken := "csrfA",
    cache := ⟨some sampleResult, 0, 86400000⟩,
    session := ⟨"sessA", "csrfA", 10⟩ }

/-- A client with an empty result cache. -/
def clientEmptyCache : ClientState :=
  { isUniFiOS := true, authToken := "tokA", csrfToken := "csrfA",
    cache := ⟨none, 0, 86400000⟩,
    session := ⟨"sessA", "csrfA", 10⟩ }

/-! ## Claims -/

/-- C2: when the fetch step receives a 401, the invalidation clears the
client's `authToken` and `csrfToken` fields and sets the session expiry to the
current time, so that the session-validity check returns false at any instant
from then on. -/
theorem c2_fetch_401_invalidates_session (c : ClientState) (now t : Int) (h : now ≤ t) :
    (invalidateSession c now).authToken = "" ∧
    (invalidateSession c now).csrfToken = "" ∧
    (invalidateSession c now).session.expires = now ∧
    isSessionValid (invalidateSession c now) t = false := by
  refine ⟨rfl, rfl, rfl, ?_⟩
  have hd : (decide (t < now)) = false := decide_eq_false (by omega)
  simp [isSessionValid, invalidateSession, hd]

theorem c2_fetch_401_invalidates_session_witness :
    (invalidateSession clientLive 5).authToken = "" ∧
    (invalidateSession clientLive 5).csrfToken = "" ∧
    (invalidateSession clientLive 5).session.expires = 5 ∧
    isSessionValid (invalidateSession clientLive 5) 5 = false :=
  c2_fetch_401_invalidates_session clientLive 5 5 (by omega)

/-- C5: a session is valid iff its auth token is non-empty and the current
time lies strictly before its expiry; `Login` with a valid cached session
reuses it without a network request, and a past expiry forces a networked
fresh login. -/
theorem c5_session_validity_iff_and_login_reuse
    (c : ClientState) (now : Int) (resp : HTTPLoginResponse) :
    (isSessionValid c now = true ↔ c.session.authToken ≠ "" ∧ now < c.session.expires) ∧
    (isSessionValid c now = true → login c now resp = ⟨useCachedSession c, none, false⟩) ∧
    (c.session.expires ≤ now → (login c now resp).networked = true) := by
  refine ⟨?_, ?_, ?_⟩
  · simp [isSessionValid]
  · intro h
    simp [login, h]
  · intro h
    have hd : (decide (now < c.session.expires)) = false := decide_eq_false (by omega)
    have hv : isSessionValid c now = false := by simp [isSessionValid, hd]
    simp only [login, hv, Bool.false_eq_true, if_false]
    split
    · rfl
    · split
      · rfl
      · rcases hp : processCookies c resp.cookies with ⟨c1, e⟩
        cases e
        · simp only []
          split
          · rfl
          · rfl
        · rfl

theorem c5_session_validity_iff_and_login_reuse_witness :
    (isSessionValid clientLive 5 = true) ∧
    login clientLive 5 ⟨200, []⟩ = ⟨useCachedSession clientLive, none, false⟩ ∧
    (login clientExpired 5 ⟨200, []⟩).networked = true :=
  ⟨by decide,
   (c5_session_validity_iff_and_login_reuse clientLive 5 ⟨200, []⟩).2.1 (by decide),
   (c5_session_validity_iff_and_login_reuse clientExpired 5 ⟨200, []⟩).2.2 (by decide)⟩

/-- C6: the cache `get` returns the stored result exactly when the elapsed
time is strictly below the TTL (and nothing otherwise), and `set` overwrites
the stored result unconditionally, stamping the time of the set. -/
theorem c6_cache_ttl_and_overwrite (c : ClientState) (r r0 : SpeedtestResult) (now : Int) :
    (c.cache.result = some r0 →
      (getCachedSpeedtest c now = some r0 ↔ now - c.cache.timestamp < c.cache.ttl)) ∧
    (c.cache.result = some r0 → c.cache.ttl ≤ now - c.cache.timestamp →
      getCachedSpeedtest c now = none) ∧
    (setCachedSpeedtest c r now).cache.result = some r ∧
    (setCachedSpeedtest c r now).cache.timestamp = now ∧
    (setCachedSpeedtest c r now).cache.ttl = c.cache.ttl := by
  refine ⟨?_, ?_, rfl, rfl, rfl⟩
  · intro h
    by_cases hlt : now - c.cache.timestamp < c.cache.ttl <;>
      simp [getCachedSpeedtest, h, hlt]
  · intro h hge
    simp [getCachedSpeedtest, h]
    omega

theorem c6_cache_ttl_and_overwrite_witness :
    getCachedSpeedtest clientCached 86399999 = some sampleResult ∧
    getCachedSpeedtest clientCached 86400001 = none ∧
    (setCachedSpeedtest clientCached sampleResult 7).cache.timestamp = 7 :=
  ⟨((c6_cache_ttl_and_overwrite clientCached sampleResult sampleResult 86399999).1 rfl).mpr
      (by norm_num [clientCached]),
   (c6_cache_ttl_and_overwrite clientCached sampleResult sampleResult 86400001).2.1 rfl
      (by norm_num [clientCached]),
   (c6_cache_ttl_and_overwrite clientCached sampleResult sampleResult 7).2.2.2.1⟩

/-- C10: on a cache miss the fetch queries the window ending now (epoch
millis) and starting exactly 86400000 ms earlier, and the cache is updated
only when the ranged fetch succeeds (it is unchanged on failure). -/
theorem c10_cache_miss_window_and_store (c : ClientState) (now : Int)
    (fetchRange : Int → Int → Except UDMError SpeedtestResult)
    (hmiss : getCachedSpeedtest c now = none) :
    (∀ err, fetchRange (now - 86400000) now = .error err →
      getSpeedtestResults c now fetchRange = (.error err, c)) ∧
    (∀ r, fetchRange (now - 86400000) now = .ok r →
      getSpeedtestResults c now fetchRange = (.ok r, setCachedSpeedtest c r now)) := by
  have h24 : now - 24 * 60 * 60 * 1000 = now - 86400000 := by norm_num
  constructor
  · intro err he
    simp [getSpeedtestResults, hmiss, h24, he]
  · intro r hr
    simp [getSpeedtestResults, hmiss, h24, hr]

theorem c10_cache_miss_window_and_store_witness :
    getSpeedtestResults clientEmptyCache 0 (fun _ _ => .error .noValidSamples)
      = (.error .noValidSamples, clientEmptyCache) ∧
    getSpeedtestResults clientEmptyCache 0 (fun _ _ => .ok sampleResult)
      = (.ok sampleResult, setCachedSpeedtest clientEmptyCache sampleResult 0) :=
  ⟨(c10_cache_miss_window_and_store clientEmptyCache 0 _ rfl).1 .noValidSamples rfl,
   (c10_cache_miss_window_and_store clientEmptyCache 0 _ rfl).2 sampleResult rfl⟩

/-- C8: speeds below 1000 render in Mb/s with one decimal; speeds of 1000 or
more render in Gb/s, divided by 1000, with one decimal. -/
theorem c8_format_speed_units :
    FormatSpeed 999 = "999.0 Mb/s" ∧
    FormatSpeed 1000 = "1.0 Gb/s" ∧
    FormatSpeed 2500 = "2.5 Gb/s" ∧
    (∀ q : ℚ, q < 1000 → FormatSpeed q = fmtOneDec q ++ " Mb/s") ∧
    (∀ q : ℚ, 1000 ≤ q → FormatSpeed q = fmtOneDec (q / 1000) ++ " Gb/s") := by
  refine ⟨?_, ?_, ?_, ?_, ?_⟩
  · have hr : roundHalfEven ((999 : ℚ) * 10) = 9990 := by norm_num [roundHalfEven]
    rw [FormatSpeed, if_neg (by norm_num : ¬((1000 : ℚ) ≤ 999)), fmtOneDec,
      if_neg (by norm_num : ¬((999 : ℚ) < 0)), fmtOneDecNonneg, hr]
    rfl
  · have h1 : (1000 : ℚ) / 1000 = 1 := by norm_num
    have hr : roundHalfEven ((1 : ℚ) * 10) = 10 := by norm_num [roundHalfEven]
    rw [FormatSpeed, if_pos (by norm_num : (1000 : ℚ) ≤ 1000), h1, fmtOneDec,
      if_neg (by norm_num : ¬((1 : ℚ) < 0)), fmtOneDecNonneg, hr]
    rfl
  · have h1 : (2500 : ℚ) / 1000 = 5 / 2 := by norm_num
    have hr : roundHalfEven ((5 / 2 : ℚ) * 10) = 25 := by norm_num [roundHalfEven]
    rw [FormatSpeed, if_pos (by norm_num : (1000 : ℚ) ≤ 2500), h1, fmtOneDec,
      if_neg (by norm_num : ¬((5 / 2 : ℚ) < 0)), fmtOneDecNonneg, hr]
    rfl
  · intro q h
    simp [FormatSpeed, not_le.mpr h]
  · intro q h
    simp [FormatSpeed, h]

theorem c8_format_speed_units_witness :
    FormatSpeed 500 = fmtOneDec 500 ++ " Mb/s" ∧
    FormatSpeed 1500 = fmtOneDec (1500 / 1000) ++ " Gb/s" :=
  ⟨c8_format_speed_units.2.2.2.1 500 (by norm_num),
   c8_format_speed_units.2.2.2.2 1500 (by norm_num)⟩


def belowAll (l : List SpeedtestEntry) (t : Int) : Bool :=
  l.all (fun e2 => decide (e2.time ≤ t))

lemma belowAll_nil (t : Int) : belowAll [] t = true := rfl

lemma belowAll_cons (a : SpeedtestEntry) (l : List SpeedtestEntry) (t : Int) :
    belowAll (a :: l) t = (decide (a.time ≤ t) && belowAll l t) := by
  simp [belowAll, List.all_cons]

lemma foldl_selectStep_eq_filter (l : List SpeedtestEntry) (acc : Option SpeedtestEntry) :
    l.foldl selectStep acc = (l.filter isValidEntry).foldl maxStep acc := by
  induction l generalizing acc with
  | nil => rfl
  | cons a l ih =>
    cases ha : isValidEntry a with
    | true =>
      rw [List.foldl_cons, List.filter_cons_of_pos ha, List.foldl_cons]
      rw [show selectStep acc a = maxStep acc a by simp [selectStep, ha]]
      exact ih _
    | false =>
      rw [List.foldl_cons, List.filter_cons_of_neg (by simp [ha])]
      rw [show selectStep acc a = acc by simp [selectStep, ha]]
      exact ih _

lemma find?_congr_mem {α : Type} {p q : α → Bool} :
    ∀ l : List α, (∀ e ∈ l, p e = q e) → l.find? p = l.find? q
  | [], _ => rfl
  | a :: l, h => by
    have ha := h a (List.mem_cons_self a l)
    rw [List.find?_cons, List.find?_cons, ha,
      find?_congr_mem l fun e he => h e (List.mem_cons_of_mem a he)]

lemma foldl_maxStep_some : ∀ (l : List SpeedtestEntry) (m : SpeedtestEntry),
    l.foldl maxStep (some m) =
      if belowAll l m.time then some m
      else l.find? (fun e => decide (m.time < e.time) && belowAll l e.time)
  | [], m => by simp [belowAll]
  | a :: l, m => by
    rw [List.foldl_cons]
    by_cases hma : m.time < a.time
    · rw [show maxStep (some m) a = some a by simp [maxStep, hma], foldl_maxStep_some l a]
      have hbm : belowAll (a :: l) m.time = false := by
        rw [belowAll_cons, decide_eq_false (by omega : ¬ a.time ≤ m.time), Bool.false_and]
      rw [hbm]
      simp only [Bool.false_eq_true, if_false]
      cases hall : belowAll l a.time with
      | true =>
        rw [if_pos rfl]
        have hpa : (decide (m.time < a.time) && belowAll (a :: l) a.time) = true := by
          rw [belowAll_cons, decide_eq_true hma, decide_eq_true (le_refl a.time), hall]
          rfl
        rw [List.find?_cons]
        simp only [hpa]
      | false =>
        rw [if_neg (by simp)]
        have hpa : (decide (m.time < a.time) && belowAll (a :: l) a.time) = false := by
          rw [belowAll_cons, decide_eq_true (le_refl a.time), hall]
          simp
        rw [List.find?_cons]
        simp only [hpa]
        apply find?_congr_mem
        intro e he
        rw [belowAll_cons]
        cases hbe : belowAll l e.time with
        | false => simp [hbe]
        | true =>
          by_cases hae : a.time < e.time
          · simp [decide_eq_true (show m.time < e.time by omega),
              decide_eq_true (show a.time ≤ e.time by omega), decide_eq_true hae]
          · have hne : ¬ a.time ≤ e.time := by
              intro hle
              have heq : e.time = a.time := by omega
              rw [heq] at hbe
              simp [hbe] at hall
            rw [decide_eq_false hne, decide_eq_false hae]
            simp
    · rw [show maxStep (some m) a = some m by simp [maxStep, hma], foldl_maxStep_some l m]
      have hbm : belowAll (a :: l) m.time = belowAll l m.time := by
        rw [belowAll_cons, decide_eq_true (by omega : a.time ≤ m.time), Bool.true_and]
      rw [hbm]
      cases hallm : belowAll l m.time with
      | true => rw [if_pos rfl, if_pos rfl]
      | false =>
        rw [if_neg (by simp), if_neg (by simp)]
        have hpa : (decide (m.time < a.time) && belowAll (a :: l) a.time) = false := by
          rw [decide_eq_false hma, Bool.false_and]
        rw [List.find?_cons]
        simp only [hpa]
        apply find?_congr_mem
        intro e he
        rw [belowAll_cons]
        cases hbe : belowAll l e.time with
        | false => simp [hbe]
        | true =>
          by_cases hme : m.time < e.time
          · rw [decide_eq_true hme, decide_eq_true (by omega : a.time ≤ e.time)]
            rfl
          · rw [decide_eq_false hme]
            simp
    termination_by l => l.length

lemma foldl_maxStep_none : ∀ l : List SpeedtestEntry,
    l.foldl maxStep none = l.find? (fun e => belowAll l e.time)
  | [] => rfl
  | a :: l => by
    rw [List.foldl_cons, show maxStep none a = some a from rfl, foldl_maxStep_some l a]
    cases hall : belowAll l a.time with
    | true =>
      rw [if_pos rfl]
      have hpa : belowAll (a :: l) a.time = true := by
        rw [belowAll_cons, decide_eq_true (le_refl a.time), hall]
        rfl
      rw [List.find?_cons]
      simp only [hpa]
    | false =>
      rw [if_neg (by simp)]
      have hpa : belowAll (a :: l) a.time = false := by
        rw [belowAll_cons, decide_eq_true (le_refl a.time), hall]
        rfl
      rw [List.find?_cons]
      simp only [hpa]
      apply find?_congr_mem
      intro e he
      rw [belowAll_cons]
      cases hbe : belowAll l e.time with
      | false => simp [hbe]
      | true =>
        by_cases hae : a.time < e.time
        · simp [decide_eq_true hae, decide_eq_true (show a.time ≤ e.time by omega)]
        · have hne : ¬ a.time ≤ e.time := by
            intro hle
            have heq : e.time = a.time := by omega
            rw [heq] at hbe
            simp [hbe] at hall
          simp [decide_eq_false hne, decide_eq_false hae]

lemma select_eq_spec (data : List SpeedtestEntry) :
    selectMostRecent data = specFirstGreatest data := by
  rw [selectMostRecent, specFirstGreatest, foldl_selectStep_eq_filter, foldl_maxStep_none]
  rfl

/-- C3: the normalizer selects, among the entries passing the nonzero filter,
the one with the greatest timestamp, the first such entry in array order when
several share the greatest timestamp; includes the spec's worked example. -/
theorem c3_selection_policy :
    (∀ data : List SpeedtestEntry, selectMostRecent data = specFirstGreatest data) ∧
    selectMostRecent [⟨50, 0, 0, 100⟩, ⟨80, 0, 0, 200⟩, ⟨0, 0, 0, 150⟩]
      = some ⟨80, 0, 0, 200⟩ := by
  refine ⟨select_eq_spec, ?_⟩
  have h1 : isValidEntry ⟨50, 0, 0, 100⟩ = true := by simp [isValidEntry]
  have h2 : isValidEntry ⟨80, 0, 0, 200⟩ = true := by simp [isValidEntry]
  have h3 : isValidEntry (⟨0, 0, 0, 150⟩ : SpeedtestEntry) = false := by
    simp [isValidEntry]
  simp [selectMostRecent, selectStep, maxStep, h1, h2, h3]

/-- C4: an entry with zero download and zero upload is never the selected
result, and a data array with no valid entry makes the meta-wrapped branch
fail with the no-valid-samples error even when the array is non-empty. -/
theorem c4_zero_entries_never_selected :
    (∀ (data : List SpeedtestEntry) (e : SpeedtestEntry), selectMostRecent data = some e →
      ¬(e.xput_download = 0 ∧ e.xput_upload = 0)) ∧
    (∀ data : List SpeedtestEntry, data ≠ [] → (∀ e ∈ data, isValidEntry e = false) →
      handleBody (.metaWrapped "ok" "" data) = .error .noValidSamples) := by
  constructor
  · intro data e hsel hzero
    rw [select_eq_spec, specFirstGreatest] at hsel
    have hmem := List.mem_of_find?_eq_some hsel
    have hval : isValidEntry e = true := (List.mem_filter.mp hmem).2
    simp only [isValidEntry] at hval
    rw [hzero.1, hzero.2] at hval
    simp at hval
  · intro data hne hinv
    have hfil : data.filter isValidEntry = [] := List.filter_eq_nil_iff.mpr (by
      intro a ha
      simp [hinv a ha])
    have hsel : selectMostRecent data = none := by
      rw [select_eq_spec, specFirstGreatest, hfil]
      rfl
    cases data with
    | nil => exact absurd rfl hne
    | cons a l =>
      simp only [handleBody, selectAndConvert, hsel]
      rfl

theorem c4_zero_entries_never_selected_witness :
    ¬((⟨50, 0, 0, 100⟩ : SpeedtestEntry).xput_download = 0 ∧
        (⟨50, 0, 0, 100⟩ : SpeedtestEntry).xput_upload = 0) ∧
    handleBody (.metaWrapped "ok" "" [⟨0, 0, 0, 999⟩]) = .error .noValidSamples := by
  constructor
  · apply c4_zero_entries_never_selected.1 [⟨50, 0, 0, 100⟩]
    have h1 : isValidEntry ⟨50, 0, 0, 100⟩ = true := by simp [isValidEntry]
    simp [selectMostRecent, selectStep, maxStep, h1]
  · apply c4_zero_entries_never_selected.2 [⟨0, 0, 0, 999⟩] (by simp)
    intro e he
    simp only [List.mem_singleton] at he
    subst he
    simp [isValidEntry]


lemma findCSRFField_none (obj : List (String × Json)) :
    ∀ fs : List String, (∀ f ∈ fs, jsonLookup obj f = none) → findCSRFField obj fs = none
  | [], _ => rfl
  | f :: fs, h => by
    simp only [findCSRFField, h f (List.mem_cons_self f fs)]
    exact findCSRFField_none obj fs fun g hg => h g (List.mem_cons_of_mem f hg)

/-- C7: on a three-part token whose middle segment decodes to a JSON object,
extraction returns "abc" for each of the three CSRF field spellings, and an
object with none of the candidate fields yields success with the (empty)
`csrfToken` unchanged. -/
theorem c7_csrf_extraction (c : ClientState) (tok : String) (obj : List (String × Json))
    (hos : c.isUniFiOS = true) (htok : tok ≠ "")
    (hdec : decodeJwtPayload tok = .ok obj) :
    ((obj = [("csrfToken", Json.str "abc")] ∨ obj = [("csrf_token", Json.str "abc")] ∨
        obj = [("xsrfToken", Json.str "abc")]) →
      extractCSRFToken { c with authToken := tok }
        = .ok { c with authToken := tok, csrfToken := "abc" }) ∧
    ((∀ f ∈ possibleFields, jsonLookup obj f = none) →
      extractCSRFToken { c with authToken := tok } = .ok { c with authToken := tok }) := by
  have hbeq : (tok == "") = false := beq_eq_false_iff_ne.mpr htok
  constructor
  · rintro (h | h | h) <;> subst h <;>
      simp [extractCSRFToken, hos, hbeq, hdec, findCSRFField, possibleFields, jsonLookup]
  · intro h
    simp [extractCSRFToken, hos, hbeq, hdec, findCSRFField_none obj possibleFields h]

/-- A freshly constructed UniFi OS client (empty tokens, expired session). -/
def clientFreshOS : ClientState :=
  { isUniFiOS := true, authToken := "", csrfToken := "",
    cache := ⟨none, 0, 86400000⟩, session := ⟨"", "", 0⟩ }

theorem c7_csrf_extraction_witness :
    extractCSRFToken { clientFreshOS with authToken := "h.eyJjc3JmVG9rZW4iOiJhYmMifQ.s" }
      = .ok { clientFreshOS with authToken := "h.eyJjc3JmVG9rZW4iOiJhYmMifQ.s", csrfToken := "abc" } ∧
    extractCSRFToken { clientFreshOS with authToken := "h.eyJjc3JmX3Rva2VuIjoiYWJjIn0.s" }
      = .ok { clientFreshOS with authToken := "h.eyJjc3JmX3Rva2VuIjoiYWJjIn0.s", csrfToken := "abc" } ∧
    extractCSRFToken { clientFreshOS with authToken := "h.eyJ4c3JmVG9rZW4iOiJhYmMifQ.s" }
      = .ok { clientFreshOS with authToken := "h.eyJ4c3JmVG9rZW4iOiJhYmMifQ.s", csrfToken := "abc" } ∧
    extractCSRFToken { clientFreshOS with authToken := "h.eyJzdWIiOiJhZG1pbiJ9.s" }
      = .ok { clientFreshOS with authToken := "h.eyJzdWIiOiJhZG1pbiJ9.s" } := by
  refine ⟨?_, ?_, ?_, ?_⟩
  · exact (c7_csrf_extraction clientFreshOS "h.eyJjc3JmVG9rZW4iOiJhYmMifQ.s"
      [("csrfToken", Json.str "abc")] rfl (by decide) (by rfl)).1 (Or.inl rfl)
  · exact (c7_csrf_extraction clientFreshOS "h.eyJjc3JmX3Rva2VuIjoiYWJjIn0.s"
      [("csrf_token", Json.str "abc")] rfl (by decide) (by rfl)).1 (Or.inr (Or.inl rfl))
  · exact (c7_csrf_extraction clientFreshOS "h.eyJ4c3JmVG9rZW4iOiJhYmMifQ.s"
      [("xsrfToken", Json.str "abc")] rfl (by decide) (by rfl)).1 (Or.inr (Or.inr rfl))
  · exact (c7_csrf_extraction clientFreshOS "h.eyJzdWIiOiJhZG1pbiJ9.s"
      [("sub", Json.str "admin")] rfl (by decide) (by rfl)).2
      (by intro f hf; fin_cases hf <;> rfl)


lemma processCookies_bad_token (c : ClientState) (hos : c.isUniFiOS = true) :
    ∀ cookies : List (String × String),
      (∃ v, ("TOKEN", v) ∈ cookies) →
      (∀ v, ("TOKEN", v) ∈ cookies → v ≠ "" ∧ ∃ m, decodeJwtPayload v = .error m) →
      ∃ c1 m, processCookies c cookies = (c1, some m) ∧ c1.session = c.session
  | [], hex, _ => absurd hex (by simp)
  | (name, value) :: rest, hex, hbad => by
    by_cases hn : name = "TOKEN"
    · subst hn
      obtain ⟨hv, m, hm⟩ := hbad value (List.mem_cons_self _ _)
      have hext : extractCSRFToken ⟨true, value, c.csrfToken, c.cache, c.session⟩
          = .error m := by
        simp [extractCSRFToken, beq_eq_false_iff_ne.mpr hv, hm]
      refine ⟨{ c with authToken := value }, m, ?_, rfl⟩
      simp [processCookies, hos, hext]
    · obtain ⟨v, hvmem⟩ := hex
      have hvtail : ("TOKEN", v) ∈ rest := by
        rcases List.mem_cons.mp hvmem with heq | ht
        · exact absurd (congrArg Prod.fst heq).symm hn
        · exact ht
      obtain ⟨c1, m, hpc, hsess⟩ := processCookies_bad_token c hos rest ⟨v, hvtail⟩
        (fun w hw => hbad w (List.mem_cons_of_mem _ hw))
      refine ⟨c1, m, ?_, hsess⟩
      have hskip : processCookies c ((name, value) :: rest) = processCookies c rest := by
        simp [processCookies, hos, beq_eq_false_iff_ne.mpr hn]
      rw [hskip, hpc]

/-- C9: for a UniFi OS client, a 200 login response whose TOKEN cookie value
does not decode as a three-part JWT (or whose payload fails base64 or JSON
decoding) makes Login fail with a CSRF-extraction error and leaves the
session cache unchanged (no session is cached), even though an auth token was
present in the response. -/
theorem c9_bad_token_cookie_fails_login (c : ClientState) (now : Int) (resp : HTTPLoginResponse)
    (hos : c.isUniFiOS = true) (hsess : isSessionValid c now = false)
    (hst : resp.status = 200)
    (hex : ∃ v, ("TOKEN", v) ∈ resp.cookies)
    (hbad : ∀ v, ("TOKEN", v) ∈ resp.cookies → v ≠ "" ∧ ∃ m, decodeJwtPayload v = .error m) :
    (∃ m, (login c now resp).err = some (.csrfExtractFailed m)) ∧
    (login c now resp).state.session = c.session := by
  obtain ⟨c1, m, hpc, hsess1⟩ := processCookies_bad_token c hos resp.cookies hex hbad
  have hlogin : login c now resp = ⟨c1, some (.csrfExtractFailed m), true⟩ := by
    simp [login, hsess, hst, hpc]
  rw [hlogin]
  exact ⟨⟨m, rfl⟩, hsess1⟩

theorem c9_bad_token_cookie_fails_login_witness :
    (∃ m, (login clientFreshOS 0 ⟨200, [("TOKEN", "abc")]⟩).err
        = some (.csrfExtractFailed m)) ∧
    (login clientFreshOS 0 ⟨200, [("TOKEN", "abc")]⟩).state.session
        = clientFreshOS.session := by
  apply c9_bad_token_cookie_fails_login clientFreshOS 0 ⟨200, [("TOKEN", "abc")]⟩
    rfl (by decide) rfl ⟨"abc", by simp⟩
  intro v hv
  simp only [List.mem_singleton, Prod.mk.injEq, true_and] at hv
  subst hv
  exact ⟨by decide, "invalid JWT format - expected 3 parts", by rfl⟩

/-- The login endpoint answering 200 with a legacy session cookie. -/
def loginRespOk : HTTPLoginResponse := ⟨200, [("unifises", "sess")]⟩

/-- A legacy client holding a (stale) session, about to fetch. -/
def clientLegacy : ClientState :=
  { isUniFiOS := false, authToken := "old", csrfToken := "",
    cache := ⟨none, 0, 86400000⟩, session := ⟨"sess0", "", 100⟩ }

/-- The state the 401, 401, 200 trace leaves the legacy client in: the
second fresh login stamped an 8-hour session expiry at time 0. -/
def clientLegacyAfter : ClientState :=
  { isUniFiOS := false, authToken := "sess", csrfToken := "",
    cache := ⟨none, 0, 86400000⟩, session := ⟨"sess", "", 28800000⟩ }

/-- C1: the claim states that a second consecutive 401 terminates the call
with an authorization error after exactly one re-login and one retry. The
code instead handles EVERY 401 by invalidating, re-logging-in and recursing:
on the response sequence 401, 401, 200 it performs TWO re-logins and a THIRD
fetch and returns the parsed result (re-login count 2 in the instrumented
model), contradicting the claim and the source's own "retry once" comment. -/
theorem c1_second_401_not_terminal :
    getSpeedtestResultsInRange loginRespOk 0 (-86400000) 0 clientLegacy
      [⟨401, .unparsed⟩, ⟨401, .unparsed⟩, ⟨200, .metaWrapped "ok" "" [sampleEntry]⟩]
      = .ok (clientLegacyAfter, convertSpeedtestResult sampleEntry, 2) := by
  have h1 : isValidEntry sampleEntry = true := by simp [isValidEntry, sampleEntry]
  have hhb : handleBody (.metaWrapped "ok" "" [sampleEntry])
      = .ok (convertSpeedtestResult sampleEntry) := by
    simp [handleBody, selectAndConvert, selectMostRecent, selectStep, maxStep, h1]
  simp [getSpeedtestResultsInRange, hhb, invalidateSession, login, isSessionValid,
    useCachedSession, processCookies, cacheSession, extractCSRFToken,
    clientLegacy, clientLegacyAfter, loginRespOk]

end Cloudkey
